import Mathlib

/-!
A shallow embedding of the Linux module of the `membarrier` crate
(`src/lib.rs`, `mod linux`).

The crate's Linux code is effectful: it issues syscalls (`sys_membarrier`,
`mmap`, `mprotect`, ...), mutates a single shared page, forces two
`lazy_static` cells (`STRATEGY` and `mprotect::BARRIER`), and may call
`libc::abort()` through the `fatal_assert!` macro.  We embed it as explicit
state passing:

* `Env` is the kernel/host oracle: the return value of every external call
  the code can make.  One `Env` is fixed for a whole process run (the kernel
  answers each command the same way every time it is asked).
* `Event` records each external action the code performs, in order; a run of
  an operation yields the list of events it issued.
* `ProcState` carries the two `lazy_static` cells as `Option` caches
  (`none` = not yet forced), plus the shared page state once mapped.
* Every operation returns `(trace, state, completed)`.  `completed = false`
  means a `fatal_assert!` failed, i.e. the process called `libc::abort()`;
  the trace then ends with `Event.abort` and no further code runs.
-/

/-- CPU architecture, as tested by `cfg!(target_arch = ...)` in
`mprotect::is_supported` (src/lib.rs:298). Only the x86 families matter. -/
inductive Arch
  | x86
  | x86_64
  | other
deriving DecidableEq

/-- `enum Strategy` (src/lib.rs:122-129): the three strategies for a
process-wide barrier on Linux. -/
inductive Strategy
  | Membarrier
  | Mprotect
  | Fallback
deriving DecidableEq

/-- Page access protection, the two states `mprotect` is called with in this
code: `PROT_NONE` and `PROT_READ | PROT_WRITE`. -/
inductive PageProt
  | noAccess
  | readWrite
deriving DecidableEq

/-- An observable external action performed by the embedded code, in program
order. `abort` is the `libc::abort()` call hidden in `fatal_assert!`. -/
inductive Event
  | syscall (cmd : Int)
  | sysconfCall
  | mmap
  | mlock
  | mutexAttrInit
  | mutexSetType
  | mutexInit
  | mutexAttrDestroy
  | mutexLock
  | mutexUnlock
  | mprotectSet (prot : PageProt)
  | pageWrite
  | compilerFence
  | cpuFence
  | abort
deriving DecidableEq

/-- The kernel/host oracle: the result of every external call the Linux
module can make.  Fields mirror the call sites in src/lib.rs. -/
structure Env where
  /-- Result of `libc::syscall(SYS_membarrier, cmd, 0)` for each command
  (src/lib.rs:169-171). -/
  membarrierRet : Int → Int
  /-- The `cfg!(target_arch)` of the build (src/lib.rs:298). -/
  arch : Arch
  /-- Result of `libc::sysconf(_SC_PAGESIZE)` (src/lib.rs:260). -/
  pageSizeRet : Int
  /-- Whether `libc::mmap` returned `MAP_FAILED` (src/lib.rs:265-273). -/
  mmapFailed : Bool
  /-- The address `libc::mmap` returned, when it did not fail
  (src/lib.rs:274 checks its alignment). -/
  mmapAddr : Nat
  /-- Result of `libc::mlock(page, page_size)` (src/lib.rs:279). -/
  mlockRet : Int
  /-- Result of `libc::pthread_mutexattr_init` (src/lib.rs:284). -/
  mutexattrInitRet : Int
  /-- Result of `libc::pthread_mutexattr_settype` (src/lib.rs:286). -/
  mutexSettypeRet : Int
  /-- Result of `libc::pthread_mutex_init` (src/lib.rs:288). -/
  mutexInitRet : Int
  /-- Result of `libc::pthread_mutexattr_destroy` (src/lib.rs:289). -/
  mutexattrDestroyRet : Int
  /-- Result of `libc::pthread_mutex_lock` (src/lib.rs:225). -/
  lockRet : Int
  /-- Result of `libc::mprotect(page, size, PROT_READ | PROT_WRITE)`
  (src/lib.rs:229). -/
  mprotectRwRet : Int
  /-- Result of `libc::mprotect(page, size, PROT_NONE)` (src/lib.rs:246). -/
  mprotectNoneRet : Int
  /-- Result of `libc::pthread_mutex_unlock` (src/lib.rs:249). -/
  unlockRet : Int

/-- The state of the shared barrier page of `mprotect::Barrier`
(src/lib.rs:208-212): its current protection, the machine word at its start
(target of the `AtomicUsize::fetch_add`), and its size. -/
structure Page where
  prot : PageProt
  value : Nat
  size : Nat
deriving DecidableEq

/-- The per-process lazily initialized state: the `STRATEGY` cell
(src/lib.rs:131-142) and the `mprotect::BARRIER` cell (src/lib.rs:254-294),
each `none` until first forced. -/
structure ProcState where
  strategyCache : Option Strategy
  pageCache : Option Page
deriving DecidableEq

/-- The state of a freshly started process: neither `lazy_static` cell has
been forced. -/
def startState : ProcState := ⟨none, none⟩

namespace membarrier

/-- `membarrier_cmd::MEMBARRIER_CMD_QUERY` (src/lib.rs:157). -/
def MEMBARRIER_CMD_QUERY : Int := 0

/-- `membarrier_cmd::MEMBARRIER_CMD_GLOBAL = 1 << 0` (src/lib.rs:158). -/
def MEMBARRIER_CMD_GLOBAL : Int := 1

/-- `membarrier_cmd::MEMBARRIER_CMD_GLOBAL_EXPEDITED = 1 << 1`
(src/lib.rs:159). -/
def MEMBARRIER_CMD_GLOBAL_EXPEDITED : Int := 2

/-- `membarrier_cmd::MEMBARRIER_CMD_REGISTER_GLOBAL_EXPEDITED = 1 << 2`
(src/lib.rs:160). -/
def MEMBARRIER_CMD_REGISTER_GLOBAL_EXPEDITED : Int := 4

/-- `membarrier_cmd::MEMBARRIER_CMD_PRIVATE_EXPEDITED = 1 << 3`
(src/lib.rs:161). -/
def MEMBARRIER_CMD_PRIVATE_EXPEDITED : Int := 8

/-- `membarrier_cmd::MEMBARRIER_CMD_REGISTER_PRIVATE_EXPEDITED = 1 << 4`
(src/lib.rs:162). -/
def MEMBARRIER_CMD_REGISTER_PRIVATE_EXPEDITED : Int := 16

/-- `fn sys_membarrier(cmd)` (src/lib.rs:169-171): ask the kernel oracle. -/
def sys_membarrier (e : Env) (cmd : Int) : Int :=
  e.membarrierRet cmd

/-- `membarrier::is_supported` (src/lib.rs:174-191).  Queries the supported
commands; requires a non-negative result with both the
`GLOBAL_EXPEDITED` and `REGISTER_GLOBAL_EXPEDITED` bits, then registers the
process and requires a non-negative result.  Returns its trace and the
boolean result; it contains no `fatal_assert!`, so it never aborts. -/
def is_supported (e : Env) : List Event × Bool :=
  let ret := sys_membarrier e MEMBARRIER_CMD_QUERY
  if ret < 0 ∨ Int.land ret MEMBARRIER_CMD_GLOBAL_EXPEDITED = 0
      ∨ Int.land ret MEMBARRIER_CMD_REGISTER_GLOBAL_EXPEDITED = 0 then
    ([Event.syscall MEMBARRIER_CMD_QUERY], false)
  else if sys_membarrier e MEMBARRIER_CMD_REGISTER_GLOBAL_EXPEDITED < 0 then
    ([Event.syscall MEMBARRIER_CMD_QUERY,
      Event.syscall MEMBARRIER_CMD_REGISTER_GLOBAL_EXPEDITED], false)
  else
    ([Event.syscall MEMBARRIER_CMD_QUERY,
      Event.syscall MEMBARRIER_CMD_REGISTER_GLOBAL_EXPEDITED], true)

/-- `membarrier::barrier` (src/lib.rs:195-198): issue the
`GLOBAL_EXPEDITED` command and `fatal_assert!` that it did not fail. -/
def barrier (e : Env) : List Event × Bool :=
  if 0 ≤ sys_membarrier e MEMBARRIER_CMD_GLOBAL_EXPEDITED then
    ([Event.syscall MEMBARRIER_CMD_GLOBAL_EXPEDITED], true)
  else
    ([Event.syscall MEMBARRIER_CMD_GLOBAL_EXPEDITED, Event.abort], false)

end membarrier

namespace mprotect

/-- `mprotect::is_supported` (src/lib.rs:297-303): true exactly on the
x86 / x86-64 target architectures. -/
def is_supported (a : Arch) : Bool :=
  match a with
  | Arch.x86 => true
  | Arch.x86_64 => true
  | Arch.other => false

/-- The initializer of the `lazy_static` cell `mprotect::BARRIER`
(src/lib.rs:254-294), run once when the cell is first forced: query the
page size, map one anonymous `PROT_NONE` page, `mlock` it (the return value
of `mlock` is NOT checked by the source), and initialize the mutex.  Every
`fatal_assert!` of the source is a `none` (abort) branch here; `none` means
the process aborted. -/
def BARRIER (e : Env) : List Event × Option Page :=
  if e.pageSizeRet ≤ 0 then
    ([Event.sysconfCall, Event.abort], none)
  else if e.mmapFailed then
    ([Event.sysconfCall, Event.mmap, Event.abort], none)
  else if ¬ e.mmapAddr % e.pageSizeRet.toNat = 0 then
    ([Event.sysconfCall, Event.mmap, Event.abort], none)
  else if e.mutexattrInitRet ≠ 0 then
    ([Event.sysconfCall, Event.mmap, Event.mlock, Event.mutexAttrInit,
      Event.abort], none)
  else if e.mutexSettypeRet ≠ 0 then
    ([Event.sysconfCall, Event.mmap, Event.mlock, Event.mutexAttrInit,
      Event.mutexSetType, Event.abort], none)
  else if e.mutexInitRet ≠ 0 then
    ([Event.sysconfCall, Event.mmap, Event.mlock, Event.mutexAttrInit,
      Event.mutexSetType, Event.mutexInit, Event.abort], none)
  else if e.mutexattrDestroyRet ≠ 0 then
    ([Event.sysconfCall, Event.mmap, Event.mlock, Event.mutexAttrInit,
      Event.mutexSetType, Event.mutexInit, Event.mutexAttrDestroy,
      Event.abort], none)
  else
    ([Event.sysconfCall, Event.mmap, Event.mlock, Event.mutexAttrInit,
      Event.mutexSetType, Event.mutexInit, Event.mutexAttrDestroy],
     some ⟨PageProt.noAccess, 0, e.pageSizeRet.toNat⟩)

/-- `mprotect::Barrier::barrier` (src/lib.rs:222-251): under the mutex, flip
the page protection to read+write, dirty the page with an atomic
`fetch_add(1)` (a `usize`, hence mod 2^64), flip the protection back to
none, unlock.  Each step is guarded by `fatal_assert!`; a failed `mprotect`
leaves the protection unchanged and aborts. -/
def Barrier.barrier (e : Env) (p : Page) : List Event × Page × Bool :=
  if e.lockRet ≠ 0 then
    ([Event.mutexLock, Event.abort], p, false)
  else if e.mprotectRwRet ≠ 0 then
    ([Event.mutexLock, Event.mprotectSet PageProt.readWrite, Event.abort],
     p, false)
  else
    let p1 : Page := ⟨PageProt.readWrite, (p.value + 1) % 2 ^ 64, p.size⟩
    if e.mprotectNoneRet ≠ 0 then
      ([Event.mutexLock, Event.mprotectSet PageProt.readWrite,
        Event.pageWrite, Event.abort], p1, false)
    else
      let p2 : Page := ⟨PageProt.noAccess, p1.value, p1.size⟩
      if e.unlockRet ≠ 0 then
        ([Event.mutexLock, Event.mprotectSet PageProt.readWrite,
          Event.pageWrite, Event.mprotectSet PageProt.noAccess,
          Event.abort], p2, false)
      else
        ([Event.mutexLock, Event.mprotectSet PageProt.readWrite,
          Event.pageWrite, Event.mprotectSet PageProt.noAccess,
          Event.mutexUnlock], p2, true)

/-- Forcing the `lazy_static` cell `BARRIER` (the implicit deref at
src/lib.rs:308): run the initializer only when the cache is empty. -/
def forcePage (e : Env) (s : ProcState) : List Event × ProcState × Option Page :=
  match s.pageCache with
  | some p => ([], s, some p)
  | none =>
    let r := BARRIER e
    match r.2 with
    | some p => (r.1, { s with pageCache := some p }, some p)
    | none => (r.1, s, none)

/-- `mprotect::barrier` (src/lib.rs:307-309): force `BARRIER` and run
`Barrier::barrier` on it. -/
def barrier (e : Env) (s : ProcState) : List Event × ProcState × Bool :=
  let r := forcePage e s
  match r.2.2 with
  | none => (r.1, r.2.1, false)
  | some p =>
    let rb := Barrier.barrier e p
    (r.1 ++ rb.1, { r.2.1 with pageCache := some rb.2.1 }, rb.2.2)

end mprotect

/-- Forcing the `lazy_static` cell `STRATEGY` (src/lib.rs:131-142): on first
use probe `membarrier::is_supported`, then `mprotect::is_supported`, else
fall back; cache the choice.  Returns the strategy, the events of the
forcing, and the updated state. -/
def STRATEGY (e : Env) (s : ProcState) : Strategy × List Event × ProcState :=
  match s.strategyCache with
  | some st => (st, [], s)
  | none =>
    let r := membarrier.is_supported e
    let st :=
      if r.2 then Strategy.Membarrier
      else if mprotect.is_supported e.arch then Strategy.Mprotect
      else Strategy.Fallback
    (st, r.1, { s with strategyCache := some st })

/-- `linux::light` (src/lib.rs:318-324): dereference `STRATEGY`; a compiler
fence under `Membarrier` or `Mprotect`, a `SeqCst` fence under `Fallback`. -/
def light (e : Env) (s : ProcState) : List Event × ProcState × Bool :=
  let r := STRATEGY e s
  match r.1 with
  | Strategy.Membarrier => (r.2.1 ++ [Event.compilerFence], r.2.2, true)
  | Strategy.Mprotect => (r.2.1 ++ [Event.compilerFence], r.2.2, true)
  | Strategy.Fallback => (r.2.1 ++ [Event.cpuFence], r.2.2, true)

/-- `linux::heavy` (src/lib.rs:332-339): dereference `STRATEGY` and dispatch
to `membarrier::barrier`, `mprotect::barrier`, or a `SeqCst` fence. -/
def heavy (e : Env) (s : ProcState) : List Event × ProcState × Bool :=
  let r := STRATEGY e s
  match r.1 with
  | Strategy.Membarrier =>
    let rb := membarrier.barrier e
    (r.2.1 ++ rb.1, r.2.2, rb.2)
  | Strategy.Mprotect =>
    let rb := mprotect.barrier e r.2.2
    (r.2.1 ++ rb.1, rb.2.1, rb.2.2)
  | Strategy.Fallback => (r.2.1 ++ [Event.cpuFence], r.2.2, true)

/-- `linux::init_membarrier` (src/lib.rs:347-349):
`fatal_assert!(membarrier::is_supported())`.  Note that it calls
`membarrier::is_supported` directly, not through the `STRATEGY` cache, so
each call re-runs the probe (including the registration syscall). -/
def init_membarrier (e : Env) (s : ProcState) : List Event × ProcState × Bool :=
  let r := membarrier.is_supported e
  if r.2 then (r.1, s, true) else (r.1 ++ [Event.abort], s, false)

/-- `linux::light_membarrier` (src/lib.rs:357-359): a compiler fence only. -/
def light_membarrier (_e : Env) (s : ProcState) : List Event × ProcState × Bool :=
  ([Event.compilerFence], s, true)

/-- `linux::heavy_membarrier` (src/lib.rs:367-369): call
`membarrier::barrier()` directly, with no strategy dispatch. -/
def heavy_membarrier (e : Env) (s : ProcState) : List Event × ProcState × Bool :=
  let r := membarrier.barrier e
  (r.1, s, r.2)

/-- The public operations of the Linux module, for reasoning about call
sequences. -/
inductive Op
  | light
  | heavy
  | light_membarrier
  | heavy_membarrier
  | init_membarrier
deriving DecidableEq

/-- Run one public operation. -/
def runOp (e : Env) (s : ProcState) : Op → List Event × ProcState × Bool
  | Op.light => light e s
  | Op.heavy => heavy e s
  | Op.light_membarrier => light_membarrier e s
  | Op.heavy_membarrier => heavy_membarrier e s
  | Op.init_membarrier => init_membarrier e s

/-- Run a sequence of public operations, stopping at the first abort (an
aborted process executes nothing further). -/
def run (e : Env) (s : ProcState) : List Op → List Event × ProcState × Bool
  | [] => ([], s, true)
  | o :: os =>
    let r := runOp e s o
    if r.2.2 then
      let r2 := run e r.2.1 os
      (r.1 ++ r2.1, r2.2.1, r2.2.2)
    else (r.1, r.2.1, false)

/-- Number of occurrences of an event in a trace. -/
def countEvent (ev : Event) : List Event → Nat
  | [] => 0
  | x :: tl => (if x = ev then 1 else 0) + countEvent ev tl

/-- The shorthand for the registration syscall event, counted in the
at-most-once theorems. -/
def regEvent : Event :=
  Event.syscall membarrier.MEMBARRIER_CMD_REGISTER_GLOBAL_EXPEDITED

/-- How many more times the strategy probe (and hence the registration
syscall) may still run: one before `STRATEGY` is forced, zero after. -/
def regBudget (s : ProcState) : Nat :=
  match s.strategyCache with
  | some _ => 0
  | none => 1

/-- How many more times the page may still be mapped: one before
`mprotect::BARRIER` is forced, zero after. -/
def mmapBudget (s : ProcState) : Nat :=
  match s.pageCache with
  | some _ => 0
  | none => 1

theorem countEvent_append (ev : Event) (l1 l2 : List Event) :
    countEvent ev (l1 ++ l2) = countEvent ev l1 + countEvent ev l2 := by
  induction l1 with
  | nil => simp [countEvent]
  | cons x tl ih =>
    simp only [List.cons_append, countEvent, List.append_eq]
    rw [ih]
    omega

theorem STRATEGY_of_some (e : Env) (s : ProcState) (st : Strategy)
    (h : s.strategyCache = some st) : STRATEGY e s = (st, [], s) := by
  simp [STRATEGY, h]

theorem STRATEGY_cache_eq (e : Env) (s : ProcState) :
    ((STRATEGY e s).2.2).strategyCache = some (STRATEGY e s).1 := by
  cases h : s.strategyCache with
  | some st => simp [STRATEGY, h]
  | none => simp [STRATEGY, h]

theorem STRATEGY_pageCache (e : Env) (s : ProcState) :
    ((STRATEGY e s).2.2).pageCache = s.pageCache := by
  cases h : s.strategyCache with
  | some st => simp [STRATEGY, h]
  | none => simp [STRATEGY, h]

theorem is_supported_regCount (e : Env) :
    countEvent regEvent (membarrier.is_supported e).1 ≤ 1 := by
  simp only [membarrier.is_supported]
  split_ifs <;>
    simp [countEvent, regEvent, membarrier.MEMBARRIER_CMD_QUERY,
      membarrier.MEMBARRIER_CMD_REGISTER_GLOBAL_EXPEDITED]

theorem is_supported_mmapCount (e : Env) :
    countEvent Event.mmap (membarrier.is_supported e).1 = 0 := by
  simp only [membarrier.is_supported]
  split_ifs <;> simp [countEvent]

theorem mbarrier_regCount (e : Env) :
    countEvent regEvent (membarrier.barrier e).1 = 0 := by
  simp only [membarrier.barrier]
  split_ifs <;>
    simp [countEvent, regEvent, membarrier.MEMBARRIER_CMD_GLOBAL_EXPEDITED,
      membarrier.MEMBARRIER_CMD_REGISTER_GLOBAL_EXPEDITED]

theorem mbarrier_mmapCount (e : Env) :
    countEvent Event.mmap (membarrier.barrier e).1 = 0 := by
  simp only [membarrier.barrier]
  split_ifs <;> simp [countEvent]

theorem Barrier_barrier_regCount (e : Env) (p : Page) :
    countEvent regEvent (mprotect.Barrier.barrier e p).1 = 0 := by
  simp only [mprotect.Barrier.barrier]
  split_ifs <;> simp [countEvent, regEvent]

theorem Barrier_barrier_mmapCount (e : Env) (p : Page) :
    countEvent Event.mmap (mprotect.Barrier.barrier e p).1 = 0 := by
  simp only [mprotect.Barrier.barrier]
  split_ifs <;> simp [countEvent]

theorem BARRIER_regCount (e : Env) :
    countEvent regEvent (mprotect.BARRIER e).1 = 0 := by
  simp only [mprotect.BARRIER]
  split_ifs <;> simp [countEvent, regEvent]

theorem BARRIER_mmapCount (e : Env) :
    countEvent Event.mmap (mprotect.BARRIER e).1 ≤ 1 := by
  simp only [mprotect.BARRIER]
  split_ifs <;> simp [countEvent]

theorem STRATEGY_counts (e : Env) (s : ProcState) :
    countEvent regEvent (STRATEGY e s).2.1 + regBudget (STRATEGY e s).2.2 ≤ regBudget s ∧
    countEvent Event.mmap (STRATEGY e s).2.1 = 0 ∧
    mmapBudget (STRATEGY e s).2.2 = mmapBudget s := by
  cases h : s.strategyCache with
  | some st => simp [STRATEGY, h, countEvent]
  | none =>
    refine ⟨?_, ?_, ?_⟩
    · have h1 := is_supported_regCount e
      simp only [STRATEGY, h, regBudget]
      simp only [regBudget] at *
      omega
    · have h2 := is_supported_mmapCount e
      simpa [STRATEGY, h] using h2
    · simp [STRATEGY, h, mmapBudget]

theorem mprotect_barrier_strategyCache (e : Env) (s : ProcState) :
    ((mprotect.barrier e s).2.1).strategyCache = s.strategyCache := by
  cases hp : s.pageCache with
  | some p => simp [mprotect.barrier, mprotect.forcePage, hp]
  | none =>
    cases hb : (mprotect.BARRIER e).2 with
    | some p => simp [mprotect.barrier, mprotect.forcePage, hp, hb]
    | none => simp [mprotect.barrier, mprotect.forcePage, hp, hb]

theorem mprotect_barrier_regCount (e : Env) (s : ProcState) :
    countEvent regEvent (mprotect.barrier e s).1 = 0 := by
  cases hp : s.pageCache with
  | some p =>
    simpa [mprotect.barrier, mprotect.forcePage, hp, countEvent_append, countEvent]
      using Barrier_barrier_regCount e p
  | none =>
    cases hb : (mprotect.BARRIER e).2 with
    | some p =>
      simp [mprotect.barrier, mprotect.forcePage, hp, hb, countEvent_append,
        BARRIER_regCount, Barrier_barrier_regCount]
    | none => simp [mprotect.barrier, mprotect.forcePage, hp, hb, BARRIER_regCount]

theorem mprotect_barrier_mmap (e : Env) (s : ProcState) :
    ((mprotect.barrier e s).2.2 = true →
      countEvent Event.mmap (mprotect.barrier e s).1 + mmapBudget (mprotect.barrier e s).2.1
        ≤ mmapBudget s) ∧
    ((mprotect.barrier e s).2.2 = false →
      countEvent Event.mmap (mprotect.barrier e s).1 ≤ mmapBudget s) := by
  cases hp : s.pageCache with
  | some p =>
    have h1 := Barrier_barrier_mmapCount e p
    constructor <;> intro hok <;>
      simp [mprotect.barrier, mprotect.forcePage, hp, countEvent_append, countEvent,
        mmapBudget, h1]
  | none =>
    cases hb : (mprotect.BARRIER e).2 with
    | some p =>
      have h1 := Barrier_barrier_mmapCount e p
      have h2 := BARRIER_mmapCount e
      constructor <;> intro hok <;>
        simp [mprotect.barrier, mprotect.forcePage, hp, hb, countEvent_append,
          mmapBudget, h1] <;> omega
    | none =>
      have h2 := BARRIER_mmapCount e
      constructor <;> intro hok
      · simp [mprotect.barrier, mprotect.forcePage, hp, hb] at hok
      · simpa [mprotect.barrier, mprotect.forcePage, hp, hb, mmapBudget] using h2

theorem regBudget_congr (s1 s2 : ProcState) (h : s1.strategyCache = s2.strategyCache) :
    regBudget s1 = regBudget s2 := by simp [regBudget, h]

theorem mmapBudget_congr (s1 s2 : ProcState) (h : s1.pageCache = s2.pageCache) :
    mmapBudget s1 = mmapBudget s2 := by simp [mmapBudget, h]

theorem light_counts (e : Env) (s : ProcState) :
    countEvent regEvent (light e s).1 + regBudget (light e s).2.1 ≤ regBudget s ∧
    countEvent Event.mmap (light e s).1 + mmapBudget (light e s).2.1 ≤ mmapBudget s ∧
    (light e s).2.2 = true := by
  have hc := STRATEGY_counts e s
  cases hst : (STRATEGY e s).1 <;>
    simp_all [light, hst, countEvent_append, countEvent, regEvent]

theorem heavy_counts (e : Env) (s : ProcState) :
    countEvent regEvent (heavy e s).1 + regBudget (heavy e s).2.1 ≤ regBudget s ∧
    ((heavy e s).2.2 = true →
      countEvent Event.mmap (heavy e s).1 + mmapBudget (heavy e s).2.1 ≤ mmapBudget s) ∧
    ((heavy e s).2.2 = false →
      countEvent Event.mmap (heavy e s).1 ≤ mmapBudget s) := by
  have hc := STRATEGY_counts e s
  cases hst : (STRATEGY e s).1 with
  | Membarrier =>
    have h1 := mbarrier_regCount e
    have h2 := mbarrier_mmapCount e
    refine ⟨?_, fun hok => ?_, fun hok => ?_⟩ <;>
      simp_all [heavy, hst, countEvent_append]
  | Mprotect =>
    have h1 := mprotect_barrier_regCount e (STRATEGY e s).2.2
    have h3 := regBudget_congr (mprotect.barrier e (STRATEGY e s).2.2).2.1 (STRATEGY e s).2.2
      (mprotect_barrier_strategyCache e (STRATEGY e s).2.2)
    have h4 := mprotect_barrier_mmap e (STRATEGY e s).2.2
    refine ⟨?_, fun hok => ?_, fun hok => ?_⟩
    · simp_all [heavy, hst, countEvent_append]
      try omega
    · simp only [heavy, hst, countEvent_append] at hok ⊢
      have h5 := h4.1 (by simpa using hok)
      simp_all [countEvent_append]
      try omega
    · simp only [heavy, hst, countEvent_append] at hok ⊢
      have h5 := h4.2 (by simpa using hok)
      simp_all [countEvent_append]
      try omega
  | Fallback =>
    refine ⟨?_, fun hok => ?_, fun hok => ?_⟩ <;>
      simp_all [heavy, hst, countEvent_append, countEvent, regEvent]

theorem runOp_strategyCache (e : Env) (s : ProcState) (o : Op) (st : Strategy)
    (h : s.strategyCache = some st) :
    ((runOp e s o).2.1).strategyCache = some st := by
  have hs := STRATEGY_of_some e s st h
  cases o with
  | light => cases st <;> simp [runOp, light, hs, h]
  | heavy =>
    cases st with
    | Membarrier => simp [runOp, heavy, hs, h]
    | Mprotect =>
      simp only [runOp, heavy, hs]
      rw [mprotect_barrier_strategyCache]
      exact h
    | Fallback => simp [runOp, heavy, hs, h]
  | light_membarrier => simpa [runOp, light_membarrier] using h
  | heavy_membarrier => simpa [runOp, heavy_membarrier] using h
  | init_membarrier =>
    simp only [runOp, init_membarrier]
    split_ifs <;> simpa using h

theorem run_strategyCache (e : Env) (ops : List Op) :
    ∀ (s : ProcState) (st : Strategy), s.strategyCache = some st →
      ((run e s ops).2.1).strategyCache = some st := by
  induction ops with
  | nil => intro s st h; simpa [run] using h
  | cons o os ih =>
    intro s st h
    have h1 := runOp_strategyCache e s o st h
    by_cases hok : (runOp e s o).2.2 = true
    · simpa [run, hok] using ih (runOp e s o).2.1 st h1
    · have hokf : (runOp e s o).2.2 = false := by simpa using hok
      simpa [run, hokf] using h1

theorem runOp_counts (e : Env) (s : ProcState) (o : Op) (h : o ≠ Op.init_membarrier) :
    countEvent regEvent (runOp e s o).1 + regBudget (runOp e s o).2.1 ≤ regBudget s ∧
    ((runOp e s o).2.2 = true →
      countEvent Event.mmap (runOp e s o).1 + mmapBudget (runOp e s o).2.1 ≤ mmapBudget s) ∧
    ((runOp e s o).2.2 = false →
      countEvent Event.mmap (runOp e s o).1 ≤ mmapBudget s) := by
  cases o with
  | light =>
    have hl := light_counts e s
    refine ⟨hl.1, fun _ => hl.2.1, fun hok => ?_⟩
    simp only [runOp] at hok
    rw [hl.2.2] at hok
    cases hok
  | heavy => exact heavy_counts e s
  | light_membarrier =>
    refine ⟨?_, fun _ => ?_, fun hok => ?_⟩ <;>
      simp_all [runOp, light_membarrier, countEvent, regEvent]
  | heavy_membarrier =>
    have h1 := mbarrier_regCount e
    have h2 := mbarrier_mmapCount e
    refine ⟨?_, fun _ => ?_, fun hok => ?_⟩ <;> simp_all [runOp, heavy_membarrier]
  | init_membarrier => exact absurd rfl h

theorem run_counts (e : Env) (ops : List Op) :
    ∀ s : ProcState, Op.init_membarrier ∉ ops →
      countEvent regEvent (run e s ops).1 ≤ regBudget s ∧
      countEvent Event.mmap (run e s ops).1 ≤ mmapBudget s := by
  induction ops with
  | nil => intro s _; simp [run, countEvent]
  | cons o os ih =>
    intro s h
    have ho : o ≠ Op.init_membarrier := fun hh => h (by simp [hh])
    have hos : Op.init_membarrier ∉ os := fun hm => h (List.mem_cons_of_mem o hm)
    have hoc := runOp_counts e s o ho
    by_cases hok : (runOp e s o).2.2 = true
    · have hih := ih (runOp e s o).2.1 hos
      have h1 := hoc.1
      have h2 := hoc.2.1 hok
      have h3 := hih.1
      have h4 := hih.2
      simp [run, hok, countEvent_append]
      omega
    · have hokf : (runOp e s o).2.2 = false := by simpa using hok
      have h1 := hoc.1
      have h2 := hoc.2.2 hokf
      simp [run, hokf, countEvent_append]
      omega

/-- A concrete host on which every external call succeeds: the membarrier
query reports the `GLOBAL_EXPEDITED` (2) and `REGISTER_GLOBAL_EXPEDITED` (4)
bits, registration succeeds, and every page / mutex call returns 0. -/
def envOk : Env where
  membarrierRet := fun cmd => if cmd = 0 then 6 else 0
  arch := Arch.x86_64
  pageSizeRet := 4096
  mmapFailed := false
  mmapAddr := 0
  mlockRet := 0
  mutexattrInitRet := 0
  mutexSettypeRet := 0
  mutexInitRet := 0
  mutexattrDestroyRet := 0
  lockRet := 0
  mprotectRwRet := 0
  mprotectNoneRet := 0
  unlockRet := 0

/-- The same host as `envOk` except that `mlock` fails. -/
def envMlockFail : Env := { envOk with mlockRet := -1 }

/-- A concrete page in the state the initializer creates. -/
def pageZero : Page := ⟨PageProt.noAccess, 0, 4096⟩

/-- C1: for every `heavy()` call under a resolved strategy, the operation
dispatches on that strategy: under `Membarrier` it performs exactly
`membarrier::barrier` (whose trace contains the `GLOBAL_EXPEDITED`
membarrier syscall), under `Mprotect` it performs exactly the page
barrier's `Barrier::barrier` sequence on the shared page, and under
`Fallback` it issues a single `SeqCst` CPU fence; in every case the result
carries no return value beyond the trace, the state and the
completed-or-aborted flag. -/
theorem heavy_dispatch (e : Env) (s : ProcState) (st : Strategy)
    (h : s.strategyCache = some st) :
    (st = Strategy.Membarrier →
      heavy e s = ((membarrier.barrier e).1, s, (membarrier.barrier e).2) ∧
      Event.syscall membarrier.MEMBARRIER_CMD_GLOBAL_EXPEDITED ∈
        (membarrier.barrier e).1) ∧
    (st = Strategy.Mprotect → ∀ p : Page, s.pageCache = some p →
      heavy e s = ((mprotect.Barrier.barrier e p).1,
        { s with pageCache := some (mprotect.Barrier.barrier e p).2.1 },
        (mprotect.Barrier.barrier e p).2.2)) ∧
    (st = Strategy.Fallback → heavy e s = ([Event.cpuFence], s, true)) := by
  have hs := STRATEGY_of_some e s st h
  refine ⟨?_, ?_, ?_⟩
  · rintro rfl
    constructor
    · simp [heavy, hs]
    · simp only [membarrier.barrier]
      split_ifs <;> simp
  · rintro rfl p hp
    simp [heavy, hs, mprotect.barrier, mprotect.forcePage, hp]
  · rintro rfl
    simp [heavy, hs]

/-- C1 witness: on a concrete state resolved to `Fallback`, `heavy()` is a
single CPU fence. -/
theorem heavy_dispatch_witness :
    (⟨some Strategy.Fallback, none⟩ : ProcState).strategyCache =
      some Strategy.Fallback ∧
    heavy envOk ⟨some Strategy.Fallback, none⟩ =
      ([Event.cpuFence], ⟨some Strategy.Fallback, none⟩, true) :=
  ⟨rfl,
   (heavy_dispatch envOk ⟨some Strategy.Fallback, none⟩ Strategy.Fallback rfl).2.2 rfl⟩

/-- C2: every completed `Barrier::barrier` call performs exactly the
serialized sequence lock, `mprotect` to read+write, page write,
`mprotect` back to none, unlock; the page write is the atomic increment;
a failing protection change aborts the process; and a completed call
leaves the page protection in the none state. -/
theorem Barrier_barrier_spec (e : Env) (p : Page)
    (h : p.prot = PageProt.noAccess) :
    ((mprotect.Barrier.barrier e p).2.2 = true →
      (mprotect.Barrier.barrier e p).1 =
        [Event.mutexLock, Event.mprotectSet PageProt.readWrite,
         Event.pageWrite, Event.mprotectSet PageProt.noAccess,
         Event.mutexUnlock] ∧
      ((mprotect.Barrier.barrier e p).2.1).prot = PageProt.noAccess ∧
      ((mprotect.Barrier.barrier e p).2.1).value = (p.value + 1) % 2 ^ 64) ∧
    ((e.mprotectRwRet ≠ 0 ∨ e.mprotectNoneRet ≠ 0) →
      (mprotect.Barrier.barrier e p).2.2 = false) := by
  simp only [mprotect.Barrier.barrier]
  split_ifs <;> simp_all

/-- C2 witness: on the all-success host the barrier runs the exact
five-step sequence and ends with the page protection none. -/
theorem Barrier_barrier_spec_witness :
    pageZero.prot = PageProt.noAccess ∧
    (mprotect.Barrier.barrier envOk pageZero).1 =
      [Event.mutexLock, Event.mprotectSet PageProt.readWrite, Event.pageWrite,
       Event.mprotectSet PageProt.noAccess, Event.mutexUnlock] ∧
    ((mprotect.Barrier.barrier envOk pageZero).2.1).prot = PageProt.noAccess := by
  have h := (Barrier_barrier_spec envOk pageZero rfl).1 (by decide)
  exact ⟨rfl, h.1, h.2.1⟩

/-- C3: the capability probe returns `true` exactly when the query syscall
is non-negative, its result has both the `GLOBAL_EXPEDITED` and
`REGISTER_GLOBAL_EXPEDITED` bits, and the registration syscall is
non-negative; and the probe never aborts the process. -/
theorem is_supported_spec (e : Env) :
    ((membarrier.is_supported e).2 = true ↔
      (0 ≤ membarrier.sys_membarrier e membarrier.MEMBARRIER_CMD_QUERY ∧
       Int.land (membarrier.sys_membarrier e membarrier.MEMBARRIER_CMD_QUERY)
         membarrier.MEMBARRIER_CMD_GLOBAL_EXPEDITED ≠ 0 ∧
       Int.land (membarrier.sys_membarrier e membarrier.MEMBARRIER_CMD_QUERY)
         membarrier.MEMBARRIER_CMD_REGISTER_GLOBAL_EXPEDITED ≠ 0 ∧
       0 ≤ membarrier.sys_membarrier e
         membarrier.MEMBARRIER_CMD_REGISTER_GLOBAL_EXPEDITED)) ∧
    Event.abort ∉ (membarrier.is_supported e).1 := by
  constructor
  · simp only [membarrier.is_supported]
    split_ifs with h1 h2
    · constructor
      · intro hf; cases hf
      · rintro ⟨ha, hb, hc, hd⟩
        rcases h1 with h | h | h
        · omega
        · exact hb h
        · exact hc h
    · constructor
      · intro hf; cases hf
      · rintro ⟨ha, hb, hc, hd⟩
        omega
    · push_neg at h1
      exact ⟨fun _ => ⟨by omega, h1.2.1, h1.2.2, by omega⟩, fun _ => rfl⟩
  · simp only [membarrier.is_supported]
    split_ifs <;> simp

/-- C4: under a resolved `Membarrier` or `Mprotect` strategy, `light()` is
exactly one compiler fence (no CPU fence, no state change, no abort, no
other event); under `Fallback` it is exactly one `SeqCst` CPU fence. -/
theorem light_spec (e : Env) (s : ProcState) (st : Strategy)
    (h : s.strategyCache = some st) :
    ((st = Strategy.Membarrier ∨ st = Strategy.Mprotect) →
      light e s = ([Event.compilerFence], s, true)) ∧
    (st = Strategy.Fallback → light e s = ([Event.cpuFence], s, true)) := by
  have hs := STRATEGY_of_some e s st h
  constructor
  · rintro (rfl | rfl) <;> simp [light, hs]
  · rintro rfl
    simp [light, hs]

/-- C4 witness: with the strategy resolved to `Membarrier`, `light()` is a
single compiler fence and changes nothing. -/
theorem light_spec_witness :
    (⟨some Strategy.Membarrier, none⟩ : ProcState).strategyCache =
      some Strategy.Membarrier ∧
    light envOk ⟨some Strategy.Membarrier, none⟩ =
      ([Event.compilerFence], ⟨some Strategy.Membarrier, none⟩, true) :=
  ⟨rfl,
   (light_spec envOk ⟨some Strategy.Membarrier, none⟩ Strategy.Membarrier rfl).1
     (Or.inl rfl)⟩

/-- C5: first-use strategy resolution is the fixed three-tier order: the
syscall probe decides `Membarrier`; otherwise the x86/x86-64 architecture
check decides `Mprotect`; otherwise `Fallback` — and resolution always
produces one of the three strategies. -/
theorem STRATEGY_resolution (e : Env) :
    ((STRATEGY e startState).1 = Strategy.Membarrier ↔
      (membarrier.is_supported e).2 = true) ∧
    ((STRATEGY e startState).1 = Strategy.Mprotect ↔
      ((membarrier.is_supported e).2 = false ∧
       (e.arch = Arch.x86 ∨ e.arch = Arch.x86_64))) ∧
    ((STRATEGY e startState).1 = Strategy.Fallback ↔
      ((membarrier.is_supported e).2 = false ∧
       e.arch ≠ Arch.x86 ∧ e.arch ≠ Arch.x86_64)) ∧
    (mprotect.is_supported e.arch = true ↔
      (e.arch = Arch.x86 ∨ e.arch = Arch.x86_64)) ∧
    ((STRATEGY e startState).1 = Strategy.Membarrier ∨
     (STRATEGY e startState).1 = Strategy.Mprotect ∨
     (STRATEGY e startState).1 = Strategy.Fallback) := by
  cases hsup : (membarrier.is_supported e).2 <;> cases ha : e.arch <;>
    simp [STRATEGY, startState, mprotect.is_supported, hsup, ha]

/-- C6 (amended): page-barrier initialization aborts the process exactly
when the page size query fails, the page cannot be mapped, the mapped
address is misaligned, or any mutex-construction call fails; a failing
`mlock` does NOT abort, because the source never checks the return value
of `mlock` (src/lib.rs:279). -/
theorem BARRIER_abort_iff (e : Env) :
    (mprotect.BARRIER e).2 = none ↔
      (e.pageSizeRet ≤ 0 ∨ e.mmapFailed = true ∨
       ¬ e.mmapAddr % e.pageSizeRet.toNat = 0 ∨
       e.mutexattrInitRet ≠ 0 ∨ e.mutexSettypeRet ≠ 0 ∨
       e.mutexInitRet ≠ 0 ∨ e.mutexattrDestroyRet ≠ 0) := by
  simp only [mprotect.BARRIER]
  split_ifs <;> simp_all

/-- C6 counterexample: on a host where `mlock` fails (and everything else
succeeds), initialization completes instead of aborting, refuting the
claim that a failed page lock aborts the process. -/
theorem BARRIER_mlock_cex :
    envMlockFail.mlockRet < 0 ∧ (mprotect.BARRIER envMlockFail).2 ≠ none := by
  constructor <;> decide

/-- C8: strategy resolution is deterministic within a process run: forcing
`STRATEGY` again returns the same strategy, performs no events, and leaves
the state unchanged; and after any sequence of public operations the cached
strategy every caller observes is still the originally resolved one. -/
theorem STRATEGY_deterministic (e : Env) (s : ProcState) (ops : List Op) :
    (STRATEGY e (STRATEGY e s).2.2).1 = (STRATEGY e s).1 ∧
    (STRATEGY e (STRATEGY e s).2.2).2.1 = [] ∧
    (STRATEGY e (STRATEGY e s).2.2).2.2 = (STRATEGY e s).2.2 ∧
    ((run e (STRATEGY e s).2.2 ops).2.1).strategyCache =
      some (STRATEGY e s).1 := by
  have hc := STRATEGY_cache_eq e s
  have h1 := STRATEGY_of_some e (STRATEGY e s).2.2 (STRATEGY e s).1 hc
  exact ⟨by rw [h1], by rw [h1], by rw [h1], run_strategyCache e ops _ _ hc⟩

/-- C9 (amended): over any sequence of the public operations `light`,
`heavy`, `light_membarrier` and `heavy_membarrier` from process start, the
page is mapped at most once and the register-global-expedited syscall is
issued at most once; the claim's further inclusion of `init_membarrier`
fails, since that operation re-probes (and hence re-registers) on every
call. -/
theorem run_once_bounds (e : Env) (ops : List Op)
    (h : Op.init_membarrier ∉ ops) :
    countEvent Event.mmap (run e startState ops).1 ≤ 1 ∧
    countEvent regEvent (run e startState ops).1 ≤ 1 := by
  have hr := run_counts e ops startState h
  have h1 : regBudget startState = 1 := rfl
  have h2 : mmapBudget startState = 1 := rfl
  omega

/-- C9 witness: a concrete run of two `heavy()` and one `light()` call maps
the page at most once and registers at most once. -/
theorem run_once_bounds_witness :
    Op.init_membarrier ∉ [Op.heavy, Op.heavy, Op.light] ∧
    (countEvent Event.mmap
        (run envOk startState [Op.heavy, Op.heavy, Op.light]).1 ≤ 1 ∧
     countEvent regEvent
        (run envOk startState [Op.heavy, Op.heavy, Op.light]).1 ≤ 1) :=
  ⟨by decide, run_once_bounds envOk [Op.heavy, Op.heavy, Op.light] (by decide)⟩

/-- C9 counterexample: calling the public operation `init_membarrier` twice
issues the registration syscall twice, refuting "the
register-global-expedited syscall is issued at most once per process" for
arbitrary public operations. -/
theorem init_membarrier_reissues :
    countEvent regEvent
      (run envOk startState [Op.init_membarrier, Op.init_membarrier]).1 = 2 := by
  decide

/-- C10: `heavy_membarrier()` issues the global-expedited membarrier
syscall unconditionally, never touching the strategy state; it completes
exactly when the syscall result is non-negative and otherwise aborts the
process — there is no fallback. -/
theorem heavy_membarrier_spec (e : Env) (s : ProcState) :
    heavy_membarrier e s =
      (if 0 ≤ membarrier.sys_membarrier e
            membarrier.MEMBARRIER_CMD_GLOBAL_EXPEDITED then
        ([Event.syscall membarrier.MEMBARRIER_CMD_GLOBAL_EXPEDITED], s, true)
      else
        ([Event.syscall membarrier.MEMBARRIER_CMD_GLOBAL_EXPEDITED,
          Event.abort], s, false)) := by
  simp only [heavy_membarrier, membarrier.barrier]
  split_ifs <;> rfl
